import Mathlib

/-!
Verification of the resumable batch-processing core of the Apex repository
(`src/tools/...-batch-generator` scripts).  Each definition is a shallow
embedding of a concrete Python function, named after its source symbol:

* `Meshy.*`    — `src/tools/meshy-batch-generator/generate_models.py`
* `Blockade.*` — `src/tools/blockade-batch-generator/generate_skyboxes.py`
* `Eleven.*`   — `src/tools/elevenlabs-batch-generator/generate_sounds.py`

Python strings are modelled over the ASCII fragment that the catalogs and
the scripts use: `\w` is `[A-Za-z0-9_]`, `\s` is the six ASCII whitespace
characters, `str.lower`/`str.strip` act characterwise.  File IO is modelled
by explicit state fields (`persisted` for the progress JSON sidecar,
`artifacts` for the output directory); network calls are an abstract
provider record of (possibly failing) functions, with `Except` standing
for a raised `requests` exception.
-/

namespace Apex

/-- Python `\w` on the ASCII fragment: letters, digits, underscore. -/
def pyIsWord (c : Char) : Bool := c.isAlpha || c.isDigit || c == '_'

/-- Python `\s` on the ASCII fragment. -/
def pyIsSpace (c : Char) : Bool :=
  c == ' ' || c == '\t' || c == '\n' || c == '\r' || c == '\x0b' || c == '\x0c'

/-- Strip an expected literal from the front of a character list
(the fixed part of an anchored regex); `none` when it does not match. -/
def stripLit : List Char → List Char → Option (List Char)
  | [], s => some s
  | _ :: _, [] => none
  | l :: ls, c :: cs => if c = l then stripLit ls cs else none

/-- Longest digit run at the front (regex `\d*`), with the remainder. -/
def readDigits : List Char → List Char × List Char
  | [] => ([], [])
  | c :: cs =>
    if c.isDigit then
      let p := readDigits cs
      (c :: p.1, p.2)
    else ([], c :: cs)

/-- Python `int` on a decimal digit string. -/
def natOfDigits (ds : List Char) : Nat :=
  ds.foldl (fun n c => n * 10 + (c.toNat - 48)) 0

/-- Python `str.strip()` (ASCII whitespace). -/
def pyStrip (s : String) : String :=
  String.mk (((s.data.dropWhile pyIsSpace).reverse.dropWhile pyIsSpace).reverse)

/-- Python `str.lower()` characterwise. -/
def lowerChars (s : String) : List Char := s.data.map Char.toLower

/-- Python `needle in haystack` substring test. -/
def hasInfix (needle : List Char) : List Char → Bool
  | [] => needle.isEmpty
  | c :: cs => needle.isPrefixOf (c :: cs) || hasInfix needle cs

/-- Lexicographic comparison of character lists by code point (the order a
Python `sorted` of ASCII strings uses); structural so that the kernel can
evaluate it. -/
def strLeB : List Char → List Char → Bool
  | [], _ => true
  | _ :: _, [] => false
  | c :: cs, d :: ds =>
    if c.toNat < d.toNat then true
    else if d.toNat < c.toNat then false
    else strLeB cs ds

/-- The corresponding order on strings. -/
def strLe (a b : String) : Prop := strLeB a.data b.data = true

instance : DecidableRel strLe :=
  fun a b => inferInstanceAs (Decidable (strLeB a.data b.data = true))

theorem strLeB_total : ∀ a b : List Char, strLeB a b = true ∨ strLeB b a = true := by
  intro a
  induction a with
  | nil => intro b; left; rfl
  | cons c cs ih =>
    intro b
    cases b with
    | nil => right; rfl
    | cons d ds =>
      rcases Nat.lt_trichotomy c.toNat d.toNat with h | h | h
      · left; simp [strLeB, h]
      · have h1 : ¬ c.toNat < d.toNat := by omega
        have h2 : ¬ d.toNat < c.toNat := by omega
        rcases ih ds with h3 | h3
        · left; simp [strLeB, h1, h2, h3]
        · right; simp [strLeB, h1, h2, h3]
      · right; simp [strLeB, h]

theorem strLeB_trans :
    ∀ a b c : List Char, strLeB a b = true → strLeB b c = true → strLeB a c = true := by
  intro a
  induction a with
  | nil => intro b c _ _; rfl
  | cons x xs ih =>
    intro b c hab hbc
    cases b with
    | nil => simp [strLeB] at hab
    | cons y ys =>
      cases c with
      | nil => simp [strLeB] at hbc
      | cons z zs =>
        by_cases hxy : x.toNat < y.toNat
        · by_cases hyz : y.toNat < z.toNat
          · simp [strLeB, Nat.lt_trans hxy hyz]
          · by_cases hzy : z.toNat < y.toNat
            · simp [strLeB, hyz, hzy] at hbc
            · have hxz : x.toNat < z.toNat := by omega
              simp [strLeB, hxz]
        · by_cases hyx : y.toNat < x.toNat
          · simp [strLeB, hxy, hyx] at hab
          · by_cases hyz : y.toNat < z.toNat
            · have hxz : x.toNat < z.toNat := by omega
              simp [strLeB, hxz]
            · by_cases hzy : z.toNat < y.toNat
              · simp [strLeB, hyz, hzy] at hbc
              · have h1 : ¬ x.toNat < z.toNat := by omega
                have h2 : ¬ z.toNat < x.toNat := by omega
                simp [strLeB, hxy, hyx] at hab
                simp [strLeB, hyz, hzy] at hbc
                simp [strLeB, h1, h2]
                exact ih ys zs hab hbc

theorem strLeB_antisymm :
    ∀ a b : List Char, strLeB a b = true → strLeB b a = true → a = b := by
  intro a
  induction a with
  | nil =>
    intro b _ hba
    cases b with
    | nil => rfl
    | cons d ds => simp [strLeB] at hba
  | cons c cs ih =>
    intro b hab hba
    cases b with
    | nil => simp [strLeB] at hab
    | cons d ds =>
      by_cases h1 : c.toNat < d.toNat
      · have h2 : ¬ d.toNat < c.toNat := by omega
        simp [strLeB, h1, h2] at hba
      · by_cases h2 : d.toNat < c.toNat
        · simp [strLeB, h1, h2] at hab
        · have hcd : c = d := by
            have hn : c.toNat = d.toNat := by omega
            have := congrArg Char.ofNat hn
            rwa [Char.ofNat_toNat, Char.ofNat_toNat] at this
          subst hcd
          simp [strLeB] at hab hba
          rw [ih ds hab hba]

theorem string_data_inj {a b : String} (h : a.data = b.data) : a = b := by
  cases a
  cases b
  cases h
  rfl

instance : IsTotal String strLe := ⟨fun a b => strLeB_total a.data b.data⟩

instance : IsTrans String strLe := ⟨fun a b c => strLeB_trans a.data b.data c.data⟩

instance : IsAntisymm String strLe :=
  ⟨fun a b hab hba => string_data_inj (strLeB_antisymm a.data b.data hab hba)⟩

/-- The canonical (sorted) enumeration of a finite set of strings, used to
model Python's `list(set)` / `sorted(list(set))` when a checkpoint is
serialized.  Insertion sort over the structural order keeps the
definition kernel-reducible. -/
def sortedList (s : Finset String) : List String :=
  Quotient.liftOn s.val (fun l => List.insertionSort strLe l)
    (fun l₁ l₂ h =>
      List.eq_of_perm_of_sorted
        ((List.perm_insertionSort _ l₁).trans (h.trans (List.perm_insertionSort _ l₂).symm))
        (List.sorted_insertionSort _ l₁) (List.sorted_insertionSort _ l₂))

theorem mem_sortedList (a : String) (s : Finset String) :
    a ∈ sortedList s ↔ a ∈ s := by
  obtain ⟨val, nodup⟩ := s
  induction val using Quotient.inductionOn with
  | h l =>
    show a ∈ List.insertionSort _ l ↔ _
    rw [(List.perm_insertionSort _ l).mem_iff]
    rfl

theorem sortedList_toFinset (s : Finset String) : (sortedList s).toFinset = s := by
  ext a
  rw [List.mem_toFinset, mem_sortedList]

end Apex

namespace Meshy

open Apex

/-- `ModelPrompt` dataclass (`generate_models.py` lines 48-61).
`sectionNum` is the source field `section` (a Lean keyword). -/
structure ModelPrompt where
  id : String
  name : String
  prompt : String
  sectionNum : Nat
  category : String
  deriving DecidableEq, Repr

/-- `re.sub(r'[^\w\s-]', '', self.name).replace(' ', '_')`
(`ModelPrompt.filename`, lines 57-61): drop characters outside
word/whitespace/hyphen, then replace spaces (only U+0020) by underscores. -/
def sanitizedName (name : String) : String :=
  String.mk ((name.data.filter fun c => pyIsWord c || pyIsSpace c || c == '-').map
    fun c => if c == ' ' then '_' else c)

/-- `ModelPrompt.filename`: `f"{self.id}_{safe_name}"` (extension added by caller). -/
def ModelPrompt.filename (m : ModelPrompt) : String :=
  m.id ++ "_" ++ sanitizedName m.name

/-- `GLOBAL_STYLE` (line 38). -/
def GLOBAL_STYLE : String :=
  ", low-poly stylized medieval fantasy, game-ready asset, clean topology, soft shadows, PBR textures, white background"

/-- Lines 132-133: append `GLOBAL_STYLE` unless the lowercased prompt
already contains `"low-poly stylized"`. -/
def addGlobalStyle (p : String) : String :=
  if hasInfix "low-poly stylized".data (lowerChars p) then p else p ++ GLOBAL_STYLE

/-- `re.match(r'^# SECTION (\d+): (.+)$', line)`, returning `int(group(1))`
as the parser uses it (line 98-100). -/
def matchSection (l : String) : Option Nat :=
  match stripLit "# SECTION ".data l.data with
  | none => none
  | some r =>
    let p := readDigits r
    if p.1.isEmpty then none else
    match stripLit ": ".data p.2 with
    | none => none
    | some rest => if rest.isEmpty then none else some (natOfDigits p.1)

/-- `re.match(r'^## \d+\.\d+ (.+)$', line)` returning `group(1)` (lines 105-107). -/
def matchCategory (l : String) : Option String :=
  match stripLit "## ".data l.data with
  | none => none
  | some r =>
    let p := readDigits r
    if p.1.isEmpty then none else
    match p.2 with
    | '.' :: r2 =>
      let q := readDigits r2
      if q.1.isEmpty then none else
      match q.2 with
      | ' ' :: rest => if rest.isEmpty then none else some (String.mk rest)
      | _ => none
    | _ => none

/-- `re.match(r'^### ([A-Z]\d{2}) - (.+)$', line)` returning
`(group(1), group(2))` (lines 112-115). -/
def matchEntry (l : String) : Option (String × String) :=
  match stripLit "### ".data l.data with
  | none => none
  | some r =>
    match r with
    | u :: d1 :: d2 :: r2 =>
      if u.isUpper && d1.isDigit && d2.isDigit then
        match stripLit " - ".data r2 with
        | none => none
        | some nm => if nm.isEmpty then none else some (String.mk [u, d1, d2], String.mk nm)
      else none
    | _ => none

/-- `lines[i].startswith('```')`. -/
def fenceLine (l : String) : Bool := "```".data.isPrefixOf l.data

/-- The scanning loop of `parse_batch_file` (lines 94-143).  `fuel` bounds the
number of outer iterations; each iteration consumes at least one line, so
`fuel = lines.length` (supplied by `parse_batch_file`) never runs out.
On an entry header the loop skips forward to the first line starting with
three backticks (even past later entry/section headers, as the source's
inner `while` does), collects the block body, and appends the item; if no
such line remains the entry yields nothing and scanning ends. -/
def parseLoop : Nat → List String → Nat → String → List ModelPrompt → List ModelPrompt
  | 0, _, _, _, acc => acc.reverse
  | _ + 1, [], _, _, acc => acc.reverse
  | fuel + 1, line :: rest, sec, cat, acc =>
    match matchSection line with
    | some n => parseLoop fuel rest n cat acc
    | none =>
      match matchCategory line with
      | some c => parseLoop fuel rest sec c acc
      | none =>
        match matchEntry line with
        | none => parseLoop fuel rest sec cat acc
        | some m =>
          match rest.dropWhile (fun l => !(fenceLine l)) with
          | [] => acc.reverse
          | _ :: afterFence =>
            let promptLines := afterFence.takeWhile (fun l => !(fenceLine l))
            let rest2 := (afterFence.dropWhile (fun l => !(fenceLine l))).tail
            let ptext := addGlobalStyle (pyStrip (String.intercalate "\n" promptLines))
            parseLoop fuel rest2 sec cat
              ({ id := m.1, name := m.2, prompt := ptext, sectionNum := sec, category := cat } :: acc)

/-- `parse_batch_file` (lines 76-145).  The source reads the file and does
`content.split('\n')`; the embedding takes that line list as input. -/
def parse_batch_file (lines : List String) : List ModelPrompt :=
  parseLoop lines.length lines 0 "" []

end Meshy

namespace Blockade

/-- `SkyboxPrompt` dataclass (`generate_skyboxes.py` lines 26-32). -/
structure SkyboxPrompt where
  id : String
  name : String
  prompt : String
  category : String
  deriving DecidableEq, Repr

/-- The status dictionary returned by `get_skybox_status` as
`wait_for_completion` inspects it (lines 106-125): the `status` field is
`"complete"`, `"error"`, `"abort"` or anything else (treated as still in
progress); a complete status carries the `file_url`/`hdri_url` fields that
`download_skybox` later reads. -/
inductive ApiStatus
  | complete (fileUrl hdrUrl : Option String)
  | errorStatus (msg : String)
  | abortStatus
  | inProgress (progress queuePosition : Nat)
  deriving DecidableEq, Repr

/-- How one `wait_for_completion` call can fail: a `requests` exception
raised by `get_skybox_status` (propagating uncaught through the loop), an
`"error"`/`"abort"` status, or the final `TimeoutError` (line 127).
`fuelOut` is the fuel guard of the embedding, unreachable when
`0 < pollInterval`. -/
inductive WaitError
  | pollExn (e : String)
  | generationFailed (msg : String)
  | aborted
  | timeout (t : Nat)
  | fuelOut
  deriving DecidableEq, Repr

/-- The Blockade Labs API boundary used by `BatchProcessor`:
`create_skybox` (returning `result.get("id")`, possibly absent),
`get_skybox_status` at the n-th poll of a generation, and a raw
`requests.get(url).content` download.  `Except.error` models a raised
`requests` exception. -/
structure Provider where
  submit : String → Nat → Except String (Option Nat)
  poll : Nat → Nat → Except String ApiStatus
  download : String → Except String String

/-- The `while time.time() - start_time < timeout` polling loop of
`wait_for_completion` (lines 104-127), with idealized time: each iteration
polls once and then sleeps `interval` seconds.  Returns the outcome plus
the number of polls performed.  `fuel` bounds iterations; the caller
passes `timeout + 1`, sufficient whenever `0 < interval`. -/
def waitLoop (poll : Nat → Except String ApiStatus) (timeout interval : Nat) :
    Nat → Nat → Nat → Except WaitError (Option String × Option String) × Nat
  | fuel, n, elapsed =>
    if elapsed < timeout then
      match fuel with
      | 0 => (.error .fuelOut, n)
      | fuel + 1 =>
        match poll n with
        | .error e => (.error (.pollExn e), n + 1)
        | .ok (.complete fileUrl hdrUrl) => (.ok (fileUrl, hdrUrl), n + 1)
        | .ok (.errorStatus m) => (.error (.generationFailed m), n + 1)
        | .ok .abortStatus => (.error .aborted, n + 1)
        | .ok (.inProgress _ _) => waitLoop poll timeout interval fuel (n + 1) (elapsed + interval)
    else (.error (.timeout timeout), n)

/-- `BlockadeClient.wait_for_completion` (lines 92-127). -/
def wait_for_completion (poll : Nat → Except String ApiStatus) (timeout interval : Nat) :
    Except WaitError (Option String × Option String) × Nat :=
  waitLoop poll timeout interval (timeout + 1) 0 0

/-- The progress JSON sidecar as `_load_progress` reads it: only the
`completed` list matters (the `timestamp` field is written but never read). -/
structure ProgressFile where
  completed : List String
  deriving DecidableEq, Repr

/-- `_save_progress` (lines 157-163): `{"completed": list(self.completed), ...}`.
CPython enumerates the set in an unspecified order; the model picks the
canonical (sorted) enumeration of the same set. -/
def save_progress (completed : Finset String) : ProgressFile :=
  ⟨Apex.sortedList completed⟩

/-- `_load_progress` (lines 149-155): `set(data.get("completed", []))`,
or the empty set when no progress file exists. -/
def load_progress : Option ProgressFile → Finset String
  | none => ∅
  | some f => f.completed.toFinset

/-- `BatchProcessor` state: the in-memory `self.completed` set, the on-disk
`progress.json` (`none` = file absent), the output directory contents, and
a count of HTTP requests made against the provider. -/
structure RunState where
  completed : Finset String
  persisted : Option ProgressFile
  artifacts : Finset String
  calls : Nat
  deriving DecidableEq

/-- A fresh processor over an empty output directory. -/
def initState : RunState := ⟨∅, none, ∅, 0⟩

/-- Process restart with the same checkpoint store and output directory:
`self.completed = self._load_progress()` (line 147). -/
def restartState (s : RunState) : RunState :=
  ⟨load_progress s.persisted, s.persisted, s.artifacts, 0⟩

/-- `STYLES` (lines 134-140) and the `STYLES.get(style, STYLES["fantasy"])`
lookup of `process_single` (line 265). -/
def STYLES : List (String × Nat) :=
  [("fantasy", 67), ("digital_painting", 64), ("anime", 69), ("realistic", 70), ("scifi", 72)]

def styleId (style : String) : Nat := ((STYLES.lookup style).getD 67)

/-- `BatchProcessor.process_single` (lines 251-298): skip when already
completed; otherwise submit, poll to a terminal state, download the PNG
(and, when present, best-effort the HDR), then add the id to `completed`
and immediately write `progress.json`.  Any raised exception is caught and
yields `False`; note that a failure records nothing in the checkpoint. -/
def process_single (P : Provider) (timeout interval : Nat) (style : String)
    (item : SkyboxPrompt) (s : RunState) : Bool × RunState :=
  if item.id ∈ s.completed then (true, s)
  else
    match P.submit item.prompt (styleId style) with
    | .error _ => (false, { s with calls := s.calls + 1 })
    | .ok none => (false, { s with calls := s.calls + 1 })
    | .ok (some gid) =>
      match wait_for_completion (P.poll gid) timeout interval with
      | (.error _, polls) => (false, { s with calls := s.calls + 1 + polls })
      | (.ok urls, polls) =>
        match urls.1 with
        | none => (false, { s with calls := s.calls + 1 + polls })
        | some url =>
          match P.download url with
          | .error _ => (false, { s with calls := s.calls + 1 + polls + 1 })
          | .ok _ =>
            let s1 : RunState :=
              { s with artifacts := insert (item.id ++ ".png") s.artifacts,
                       calls := s.calls + 1 + polls + 1 }
            let s2 : RunState :=
              match urls.2 with
              | none => s1
              | some hurl =>
                match P.download hurl with
                | .error _ => { s1 with calls := s1.calls + 1 }
                | .ok _ => { s1 with
                    artifacts := insert (item.id ++ ".hdr") s1.artifacts,
                    calls := s1.calls + 1 }
            let completed2 := insert item.id s2.completed
            (true, { s2 with completed := completed2,
                             persisted := some (save_progress completed2) })

/-- `next((i for i, p in enumerate(remaining) if p.id == start_from), 0)`
(line 318): index of the first match, defaulting to `0`. -/
def findStartAux (sf : String) : List SkyboxPrompt → Nat → Nat
  | [], _ => 0
  | p :: rest, i => if p.id = sf then i else findStartAux sf rest (i + 1)

/-- The item sequence `process_all` actually iterates (lines 304 and
316-320): checkpoint-filtered `remaining`, then cut at the `start_from`
index when given. -/
def plannedItems (prompts : List SkyboxPrompt) (completed : Finset String)
    (startFrom : Option String) : List SkyboxPrompt :=
  let remaining := prompts.filter fun p => !(decide (p.id ∈ completed))
  match startFrom with
  | none => remaining
  | some sf => remaining.drop (findStartAux sf remaining 0)

/-- `BatchProcessor.process_all` (lines 300-344): fold `process_single`
over the planned items, tallying successes and failures (the final
summary report). -/
def process_all (P : Provider) (timeout interval : Nat) (style : String)
    (prompts : List SkyboxPrompt) (startFrom : Option String) (s : RunState) :
    Nat × Nat × RunState :=
  (plannedItems prompts s.completed startFrom).foldl
    (fun acc p =>
      let r := process_single P timeout interval style p acc.2.2
      if r.1 then (acc.1 + 1, acc.2.1, r.2) else (acc.1, acc.2.1 + 1, r.2))
    (0, 0, s)

end Blockade

namespace Meshy

/-- The status dictionary of `get_task_status` as `MeshyClient.wait_for_completion`
inspects it (lines 207-214): `SUCCEEDED` (carrying `model_urls.glb`, possibly
absent), `FAILED`, `PENDING`/`IN_PROGRESS`, or an unknown status (raised). -/
inductive MStatus
  | succeeded (glbUrl : Option String)
  | taskFailed (msg : String)
  | pending
  | inProgress
  | unknown (s : String)
  deriving DecidableEq, Repr

/-- Failure modes of one `MeshyClient.wait_for_completion` call (mirrors
`Blockade.WaitError`); `fuelOut` is the embedding's fuel guard, unreachable
because the poll interval is the constant 5. -/
inductive MWaitError
  | pollExn (e : String)
  | generationFailed (msg : String)
  | unknownStatus (s : String)
  | timeout (t : Nat)
  | fuelOut
  deriving DecidableEq, Repr

/-- The Meshy API boundary: `create_text_to_3d` (prompt to task id),
`get_task_status` at the n-th poll, and `download_model`. -/
structure Provider where
  create : String → Except String String
  status : String → Nat → Except String MStatus
  download : String → Except String Unit

/-- The `while time.time() - start_time < timeout` loop of
`MeshyClient.wait_for_completion` (lines 191-216) with its fixed
`time.sleep(5)` poll interval, idealized as in `Blockade.waitLoop`. -/
def waitLoopM (poll : Nat → Except String MStatus) (timeout : Nat) :
    Nat → Nat → Nat → Except MWaitError (Option String) × Nat
  | fuel, n, elapsed =>
    if elapsed < timeout then
      match fuel with
      | 0 => (.error .fuelOut, n)
      | fuel + 1 =>
        match poll n with
        | .error e => (.error (.pollExn e), n + 1)
        | .ok (.succeeded glbUrl) => (.ok glbUrl, n + 1)
        | .ok (.taskFailed m) => (.error (.generationFailed m), n + 1)
        | .ok .pending => waitLoopM poll timeout fuel (n + 1) (elapsed + 5)
        | .ok .inProgress => waitLoopM poll timeout fuel (n + 1) (elapsed + 5)
        | .ok (.unknown s) => (.error (.unknownStatus s), n + 1)
    else (.error (.timeout timeout), n)

/-- `MeshyClient.wait_for_completion` (lines 191-216). -/
def wait_for_completion (poll : Nat → Except String MStatus) (timeout : Nat) :
    Except MWaitError (Option String) × Nat :=
  waitLoopM poll timeout (timeout + 1) 0 0

/-- The meshy progress sidecar: `{"completed": [...], "failed": [...]}`
(timestamp written but never read). -/
structure MFile where
  completed : List String
  failed : List String
  deriving DecidableEq, Repr

/-- `BatchProcessor.load_progress` (lines 244-248). -/
def load_progress : Option MFile → MFile
  | none => ⟨[], []⟩
  | some f => f

/-- `BatchProcessor.save_progress` (lines 250-257): as in
`Blockade.save_progress`, `list(completed)` is modelled by the canonical
sorted enumeration of the set. -/
def save_progress (completed : Finset String) (failed : List String) : MFile :=
  ⟨Apex.sortedList completed, failed⟩

/-- `BatchProcessor.process_model` (lines 259-304): skip when the output
file already exists (the file-existence resume signal), else submit, poll,
and download; every raised exception is caught and yields a failed task.
Returns whether the task ended `"completed"` plus the new output-directory
contents.  The checkpoint itself is updated by `process_all`. -/
def process_model (P : Provider) (timeout : Nat) (m : ModelPrompt)
    (arts : Finset String) : Bool × Finset String :=
  if (m.filename ++ ".glb") ∈ arts then (true, arts)
  else
    match P.create m.prompt with
    | .error _ => (false, arts)
    | .ok tid =>
      match wait_for_completion (P.status tid) timeout with
      | (.error _, _) => (false, arts)
      | (.ok none, _) => (false, arts)
      | (.ok (some url), _) =>
        match P.download url with
        | .error _ => (false, arts)
        | .ok _ => (true, insert (m.filename ++ ".glb") arts)

/-- The `started` flag filter of `process_all` (lines 313-325): before the
first id equal to `start_from` everything is skipped; from that item on,
items not in the completed set are kept. -/
def plannedAux (sf : String) (completed : Finset String) :
    Bool → List ModelPrompt → List ModelPrompt
  | _, [] => []
  | started, m :: rest =>
    if started || (m.id == sf) then
      if m.id ∈ completed then plannedAux sf completed true rest
      else m :: plannedAux sf completed true rest
    else plannedAux sf completed false rest

/-- `models_to_process` as built by lines 313-325 (`started` is initially
true exactly when no `--start-from` was given). -/
def models_to_process (models : List ModelPrompt) (startFrom : Option String)
    (completed : Finset String) : List ModelPrompt :=
  plannedAux (startFrom.getD "") completed startFrom.isNone models

/-- The mutable state of one meshy `process_all` run. -/
structure LoopSt where
  completed : Finset String
  failed : List String
  artifacts : Finset String
  persisted : Option MFile
  deriving DecidableEq

/-- `BatchProcessor.process_all` (lines 306-349): load the checkpoint,
filter, then for each model record completed/failed and save the progress
file after every item.  Returns the summary tallies `len(completed)`
(cumulative across runs) and `len(failed)` plus the final state. -/
def process_all (P : Provider) (timeout : Nat) (models : List ModelPrompt)
    (startFrom : Option String) (persisted : Option MFile) (arts : Finset String) :
    Nat × Nat × LoopSt :=
  let progress := load_progress persisted
  let completed0 := progress.completed.toFinset
  let todo := models_to_process models startFrom completed0
  let final := todo.foldl
    (fun (a : LoopSt) m =>
      let r := process_model P timeout m a.artifacts
      let completed2 := if r.1 then insert m.id a.completed else a.completed
      let failed2 := if r.1 then a.failed else a.failed ++ [m.id]
      { completed := completed2, failed := failed2, artifacts := r.2,
        persisted := some (save_progress completed2 failed2) })
    ⟨completed0, progress.failed, arts, persisted⟩
  (final.completed.card, final.failed.length, final)

end Meshy

namespace Eleven

open Apex

/-- `SoundEffect` dataclass (`generate_sounds.py` lines 24-31). -/
structure SoundEffect where
  id : String
  name : String
  description : String
  duration : String
  category : String
  deriving DecidableEq, Repr

/-- The elevenlabs progress sidecar: `{"completed": sorted list,
"failed": [{"id", "error"}, ...]}` (timestamp written but never read). -/
structure EFile where
  completed : List String
  failed : List (String × String)
  deriving DecidableEq, Repr

/-- The ElevenLabs API boundary: `client.generate_sound(text, duration)`
returning audio bytes or raising.  The numeric duration clamp (floats) is
opaque to the claims; the duration string is passed through. -/
structure Provider where
  generate : String → String → Except String String

/-- `BatchGenerator.build_prompt` (lines 140-153). -/
def build_prompt (s : SoundEffect) : String :=
  s.description ++
    (if hasInfix "notification".data (lowerChars s.name) then ", game notification sound"
     else if hasInfix "magical".data (lowerChars s.description)
          || hasInfix "magic".data (lowerChars s.description) then ", fantasy game sound effect"
     else if hasInfix "reward".data (lowerChars s.name)
          || hasInfix "chest".data (lowerChars s.name) then ", video game reward sound"
     else "")

/-- `_save_progress` (lines 99-106): `sorted(list(self.completed))` plus the
current in-memory failed list. -/
def save_progress (completed : Finset String) (failed : List (String × String)) : EFile :=
  ⟨Apex.sortedList completed, failed⟩

/-- `_load_progress` (lines 91-97): only the completed list is reloaded;
`self.failed` always starts empty (line 89). -/
def load_progress : Option EFile → Finset String
  | none => ∅
  | some f => f.completed.toFinset

/-- `BatchGenerator` state: in-memory completed set and failed list, the
on-disk `progress.json`, and the output directory. -/
structure RunState where
  completed : Finset String
  failed : List (String × String)
  persisted : Option EFile
  artifacts : Finset String
  deriving DecidableEq

/-- A fresh generator over an empty output directory. -/
def initState : RunState := ⟨∅, [], none, ∅⟩

/-- `BatchGenerator.generate_sound` (lines 159-206): skip if completed;
on success write the mp3, add to `completed` and immediately
`_save_progress`; on a raised error append to the in-memory `failed` list
only — the progress file is NOT rewritten on the failure path. -/
def generate_sound (P : Provider) (snd : SoundEffect) (s : RunState) : Bool × RunState :=
  if snd.id ∈ s.completed then (true, s)
  else
    match P.generate (build_prompt snd) snd.duration with
    | .error msg => (false, { s with failed := s.failed ++ [(snd.id, msg)] })
    | .ok _ =>
      let completed2 := insert snd.id s.completed
      (true, { s with
        artifacts := insert (snd.id ++ "_" ++ snd.name ++ ".mp3") s.artifacts,
        completed := completed2,
        persisted := some (save_progress completed2 s.failed) })

/-- `BatchGenerator.process_all` (lines 208-246): filter by checkpoint,
fold `generate_sound` tallying success/failure, then one final
`_save_progress` after the loop (line 238). -/
def process_all (P : Provider) (sounds : List SoundEffect) (s : RunState) :
    Nat × Nat × RunState :=
  let remaining := sounds.filter fun x => !(decide (x.id ∈ s.completed))
  let r := remaining.foldl
    (fun acc x =>
      let t := generate_sound P x acc.2.2
      if t.1 then (acc.1 + 1, acc.2.1, t.2) else (acc.1, acc.2.1 + 1, t.2))
    (0, 0, s)
  (r.1, r.2.1, { r.2.2 with persisted := some (save_progress r.2.2.completed r.2.2.failed) })

end Eleven

namespace Doc

/-- An abstract catalog document: section headers, category headers and
entries (id, name, fenced payload lines), in document order.  `renderDoc`
lays it out in the exact line format of §6 of the catalog convention that
`parse_batch_file` consumes. -/
inductive DocElem
  | secH (ds label : String)
  | catH (d1 d2 label : String)
  | entry (eid ename : String) (payload : List String)
  deriving DecidableEq, Repr

/-- Render one element to its catalog lines. -/
def renderElem : DocElem → List String
  | .secH ds label => ["# SECTION " ++ ds ++ ": " ++ label]
  | .catH d1 d2 label => ["## " ++ d1 ++ "." ++ d2 ++ " " ++ label]
  | .entry eid ename payload =>
      ("### " ++ eid ++ " - " ++ ename) :: "```" :: (payload ++ ["```"])

def renderDoc : List DocElem → List String
  | [] => []
  | e :: rest => renderElem e ++ renderDoc rest

/-- An id of the `[A-Z]\d{2}` shape the entry pattern requires. -/
def goodId (i : String) : Bool :=
  match i.data with
  | [u, a, b] => u.isUpper && a.isDigit && b.isDigit
  | _ => false

/-- Well-formed element: digit fields are nonempty digit runs, labels and
names are nonempty, nothing contains a newline (the model works at line
granularity), payload lines do not look like fence delimiters. -/
def wfElem : DocElem → Prop
  | .secH ds label =>
      ds.data ≠ [] ∧ (∀ x ∈ ds.data, x.isDigit = true) ∧
      label.data ≠ [] ∧ (∀ x ∈ label.data, x ≠ '\n')
  | .catH d1 d2 label =>
      d1.data ≠ [] ∧ (∀ x ∈ d1.data, x.isDigit = true) ∧
      d2.data ≠ [] ∧ (∀ x ∈ d2.data, x.isDigit = true) ∧
      label.data ≠ [] ∧ (∀ x ∈ label.data, x ≠ '\n')
  | .entry eid ename payload =>
      goodId eid = true ∧ ename.data ≠ [] ∧ (∀ x ∈ ename.data, x ≠ '\n') ∧
      ∀ l ∈ payload, Meshy.fenceLine l = false ∧ (∀ x ∈ l.data, x ≠ '\n')

instance : (e : DocElem) → Decidable (wfElem e) := fun e => by
  cases e <;> exact inferInstanceAs (Decidable (_ ∧ _))

def wfDoc (d : List DocElem) : Prop := ∀ e ∈ d, wfElem e

instance : (d : List DocElem) → Decidable (wfDoc d) :=
  fun d => List.decidableBAll wfElem d

/-- The expected parse of a document: items in document order, each
carrying the nearest-preceding section number and category label; a
category header leaves the section context untouched. -/
def docItems : List DocElem → Nat → String → List Meshy.ModelPrompt
  | [], _, _ => []
  | .secH ds _ :: rest, _, cat => docItems rest (Apex.natOfDigits ds.data) cat
  | .catH _ _ label :: rest, sec, _ => docItems rest sec label
  | .entry eid ename payload :: rest, sec, cat =>
      { id := eid, name := ename,
        prompt := Meshy.addGlobalStyle (Apex.pyStrip (String.intercalate "\n" payload)),
        sectionNum := sec, category := cat } :: docItems rest sec cat

end Doc

/-- Elevenlabs provider whose API call always raises an HTTP error. -/
def c2FailProvider : Eleven.Provider := ⟨fun _ _ => .error "quota exceeded"⟩

/-- Blockade provider whose first poll raises a transient network error;
every later poll would report completion. -/
def c7Provider : Blockade.Provider :=
  { submit := fun _ _ => .ok (some 1),
    poll := fun _ n => if n = 0 then .error "connection reset"
                       else .ok (.complete (some "u") none),
    download := fun _ => .ok "img" }

/-- Always-in-progress blockade provider used to witness C6. -/
def c6Provider : Blockade.Provider :=
  ⟨fun _ _ => .ok (some 4), fun _ _ => .ok (.inProgress 50 0), fun _ => .ok "img"⟩

/-- Blockade provider that always succeeds immediately. -/
def c1OkProvider : Blockade.Provider :=
  ⟨fun _ _ => .ok (some 2), fun _ _ => .ok (.complete (some "u") none), fun _ => .ok "img"⟩

/-- Blockade provider whose submit always fails. -/
def c1FailProvider : Blockade.Provider :=
  ⟨fun _ _ => .error "invalid payload", fun _ _ => .ok (.complete (some "u") none),
   fun _ => .ok "img"⟩

/-- One-item catalog for the resume scenarios. -/
def c1Catalog : List Blockade.SkyboxPrompt := [⟨"SKY01", "n", "p", "c"⟩]

/-- Final state of a first run in which the single item's submit failed. -/
def c1FailRunOne : Blockade.RunState :=
  (Blockade.process_all c1FailProvider 300 5 "fantasy" c1Catalog none
    Blockade.initState).2.2

/-- A second run, immediately after, with the same checkpoint store. -/
def c1FailRunTwo : Nat × Nat × Blockade.RunState :=
  Blockade.process_all c1FailProvider 300 5 "fantasy" c1Catalog none
    (Blockade.restartState c1FailRunOne)

/-- Final state of a first run in which the single item succeeded. -/
def c1RunOne : Blockade.RunState :=
  (Blockade.process_all c1OkProvider 300 5 "fantasy" c1Catalog none
    Blockade.initState).2.2

/-- Blockade provider for the 3-item partial-failure scenario: the middle
item's submit is rejected, the others succeed immediately. -/
def c3Provider : Blockade.Provider :=
  { submit := fun prompt _ => if prompt = "p2" then .error "invalid payload" else .ok (some 7),
    poll := fun _ _ => .ok (.complete (some "u") none),
    download := fun _ => .ok "img" }

def c3Items : List Blockade.SkyboxPrompt :=
  [⟨"SKY01", "one", "p1", "c"⟩, ⟨"SKY02", "two", "p2", "c"⟩, ⟨"SKY03", "three", "p3", "c"⟩]

/-- The blockade partial-failure run. -/
def c3Run : Nat × Nat × Blockade.RunState :=
  Blockade.process_all c3Provider 300 5 "fantasy" c3Items none Blockade.initState

/-- Meshy provider for the same scenario. -/
def c3MProvider : Meshy.Provider :=
  ⟨fun prompt => if prompt = "p2" then .error "400 bad request" else .ok "task",
   fun _ _ => .ok (.succeeded (some "u")), fun _ => .ok ()⟩

def c3Models : List Meshy.ModelPrompt :=
  [⟨"M01", "one", "p1", 1, "c"⟩, ⟨"M02", "two", "p2", 1, "c"⟩, ⟨"M03", "three", "p3", 1, "c"⟩]

/-- The meshy partial-failure run (fresh store, empty output directory). -/
def c3MRun : Nat × Nat × Meshy.LoopSt :=
  Meshy.process_all c3MProvider 900 c3Models none none ∅

/-- Three-item catalog used to witness C4. -/
def c4Prompts : List Blockade.SkyboxPrompt :=
  [⟨"SKY01", "a", "p1", "c"⟩, ⟨"SKY02", "b", "p2", "c"⟩, ⟨"SKY03", "d", "p3", "c"⟩]

/-- Concrete catalog for the C8 witness: two sections, a category header
standing between two entries of section 1. -/
def c8Doc : List Doc.DocElem :=
  [Doc.DocElem.secH "1" "Terrain",
   Doc.DocElem.entry "A01" "First Asset" ["low-poly stylized hut"],
   Doc.DocElem.catH "1" "2" "Walls",
   Doc.DocElem.entry "A02" "Second Asset" ["low-poly stylized wall"],
   Doc.DocElem.secH "2" "Props",
   Doc.DocElem.entry "B01" "Third Asset" ["low-poly stylized rock"]]

/-! ## Claim theorems -/

namespace Doc

theorem stripLit_append (lit s : List Char) : Apex.stripLit lit (lit ++ s) = some s := by
  induction lit with
  | nil => rfl
  | cons c cs ih => simp [Apex.stripLit, ih]

theorem readDigits_append (ds : List Char) (c : Char) (r : List Char)
    (hds : ∀ x ∈ ds, x.isDigit = true) (hc : c.isDigit = false) :
    Apex.readDigits (ds ++ c :: r) = (ds, c :: r) := by
  induction ds with
  | nil => simp [Apex.readDigits, hc]
  | cons x xs ih =>
    have hx : x.isDigit = true := hds x (List.mem_cons_self x xs)
    simp [Apex.readDigits, hx, ih (fun y hy => hds y (List.mem_cons_of_mem x hy))]

theorem string_mk_data (s : String) : String.mk s.data = s := by
  cases s
  rfl

theorem matchSection_hash₂ (s : String) (c2 : Char) (r : List Char)
    (h : s.data = '#' :: c2 :: r) (hc : c2 ≠ ' ') : Meshy.matchSection s = none := by
  simp [Meshy.matchSection, h, Apex.stripLit, hc]

theorem matchCategory_hash₂ (s : String) (c2 : Char) (r : List Char)
    (h : s.data = '#' :: c2 :: r) (hc : c2 ≠ '#') : Meshy.matchCategory s = none := by
  simp [Meshy.matchCategory, h, Apex.stripLit, hc]

theorem matchCategory_hash₃ (s : String) (c3 : Char) (r : List Char)
    (h : s.data = '#' :: '#' :: c3 :: r) (hc : c3 ≠ ' ') : Meshy.matchCategory s = none := by
  simp [Meshy.matchCategory, h, Apex.stripLit, hc]

theorem matchEntry_hash₂ (s : String) (c2 : Char) (r : List Char)
    (h : s.data = '#' :: c2 :: r) (hc : c2 ≠ '#') : Meshy.matchEntry s = none := by
  simp [Meshy.matchEntry, h, Apex.stripLit, hc]

theorem matchEntry_hash₃ (s : String) (c3 : Char) (r : List Char)
    (h : s.data = '#' :: '#' :: c3 :: r) (hc : c3 ≠ '#') : Meshy.matchEntry s = none := by
  simp [Meshy.matchEntry, h, Apex.stripLit, hc]

theorem matchSection_secH (ds label : String)
    (h1 : ds.data ≠ []) (h2 : ∀ x ∈ ds.data, x.isDigit = true)
    (h3 : label.data ≠ []) :
    Meshy.matchSection ("# SECTION " ++ ds ++ ": " ++ label) =
      some (Apex.natOfDigits ds.data) := by
  have hdata : ("# SECTION " ++ ds ++ ": " ++ label).data =
      "# SECTION ".data ++ (ds.data ++ (':' :: ' ' :: label.data)) := by
    simp [String.data_append, show (": ").data = [':', ' '] from rfl]
  have hrd : Apex.readDigits (ds.data ++ ':' :: ' ' :: label.data) =
      (ds.data, ':' :: ' ' :: label.data) := readDigits_append ds.data ':' _ h2 (by decide)
  have hsl : Apex.stripLit ": ".data (':' :: ' ' :: label.data) = some label.data :=
    stripLit_append [':', ' '] label.data
  unfold Meshy.matchSection
  rw [hdata, stripLit_append]
  dsimp only
  rw [hrd]
  dsimp only
  rw [hsl]
  simp [h1, h3]

theorem matchCategory_catH (d1 d2 label : String)
    (ha : d1.data ≠ []) (hb : ∀ x ∈ d1.data, x.isDigit = true)
    (hc : d2.data ≠ []) (hd : ∀ x ∈ d2.data, x.isDigit = true)
    (hl : label.data ≠ []) :
    Meshy.matchCategory ("## " ++ d1 ++ "." ++ d2 ++ " " ++ label) = some label := by
  have hdata : ("## " ++ d1 ++ "." ++ d2 ++ " " ++ label).data =
      "## ".data ++ (d1.data ++ ('.' :: (d2.data ++ (' ' :: label.data)))) := by
    simp [String.data_append, show (".").data = ['.'] from rfl,
      show (" ").data = [' '] from rfl]
  have hrd1 : Apex.readDigits (d1.data ++ '.' :: (d2.data ++ (' ' :: label.data))) =
      (d1.data, '.' :: (d2.data ++ (' ' :: label.data))) :=
    readDigits_append d1.data '.' _ hb (by decide)
  have hrd2 : Apex.readDigits (d2.data ++ ' ' :: label.data) =
      (d2.data, ' ' :: label.data) := readDigits_append d2.data ' ' _ hd (by decide)
  unfold Meshy.matchCategory
  rw [hdata, stripLit_append]
  dsimp only
  rw [hrd1]
  simp [ha, hc, hl, hrd2, string_mk_data]

theorem matchEntry_entry (u a b : Char) (ename : String)
    (hu : u.isUpper = true) (h1 : a.isDigit = true) (h2 : b.isDigit = true)
    (hn : ename.data ≠ []) :
    Meshy.matchEntry ("### " ++ String.mk [u, a, b] ++ " - " ++ ename) =
      some (String.mk [u, a, b], ename) := by
  have hdata : ("### " ++ String.mk [u, a, b] ++ " - " ++ ename).data =
      "### ".data ++ (u :: a :: b :: (' ' :: '-' :: ' ' :: ename.data)) := by
    simp [String.data_append, show (" - ").data = [' ', '-', ' '] from rfl]
  have hsl : Apex.stripLit " - ".data (' ' :: '-' :: ' ' :: ename.data) = some ename.data :=
    stripLit_append [' ', '-', ' '] ename.data
  unfold Meshy.matchEntry
  rw [hdata, stripLit_append]
  dsimp only
  rw [hu, h1, h2]
  simp [hsl, hn, string_mk_data]

theorem goodId_spec (i : String) (h : goodId i = true) :
    ∃ u a b, i.data = [u, a, b] ∧ u.isUpper = true ∧ a.isDigit = true ∧ b.isDigit = true := by
  unfold goodId at h
  rcases hl : i.data with _ | ⟨u, _ | ⟨a, _ | ⟨b, _ | ⟨c, r⟩⟩⟩⟩ <;> rw [hl] at h
  · simp at h
  · simp at h
  · simp at h
  · simp at h
    exact ⟨u, a, b, rfl, h.1.1, h.1.2, h.2⟩
  · simp at h

/-- The scanning loop consumes a rendered well-formed document exactly as
the reference semantics `docItems` prescribes. -/
theorem parseLoop_render :
    ∀ (d : List DocElem) (fuel : Nat) (sec : Nat) (cat : String)
      (acc : List Meshy.ModelPrompt),
      wfDoc d → (renderDoc d).length ≤ fuel →
      Meshy.parseLoop fuel (renderDoc d) sec cat acc =
        acc.reverse ++ docItems d sec cat := by
  intro d
  induction d with
  | nil =>
    intro fuel sec cat acc _ _
    cases fuel <;> simp [renderDoc, docItems, Meshy.parseLoop]
  | cons e rest ih =>
    intro fuel sec cat acc hwf hlen
    have hwfe : wfElem e := hwf e (List.mem_cons_self e rest)
    have hwfr : wfDoc rest := fun x hx => hwf x (List.mem_cons_of_mem e hx)
    cases e with
    | secH ds label =>
      obtain ⟨h1, h2, h3, _⟩ := hwfe
      have hrd : renderDoc (DocElem.secH ds label :: rest) =
          ("# SECTION " ++ ds ++ ": " ++ label) :: renderDoc rest := rfl
      rw [hrd] at hlen ⊢
      cases fuel with
      | zero => simp at hlen
      | succ f =>
        have hf : (renderDoc rest).length ≤ f := by
          simp [List.length_cons] at hlen
          omega
        have hstep : Meshy.parseLoop (f + 1)
            (("# SECTION " ++ ds ++ ": " ++ label) :: renderDoc rest) sec cat acc =
            Meshy.parseLoop f (renderDoc rest) (Apex.natOfDigits ds.data) cat acc := by
          simp [Meshy.parseLoop, matchSection_secH ds label h1 h2 h3]
        rw [hstep, ih f (Apex.natOfDigits ds.data) cat acc hwfr hf]
        rfl
    | catH d1 d2 label =>
      obtain ⟨ha, hb, hc, hd, hl, _⟩ := hwfe
      have hrd : renderDoc (DocElem.catH d1 d2 label :: rest) =
          ("## " ++ d1 ++ "." ++ d2 ++ " " ++ label) :: renderDoc rest := rfl
      rw [hrd] at hlen ⊢
      cases fuel with
      | zero => simp at hlen
      | succ f =>
        have hf : (renderDoc rest).length ≤ f := by
          simp [List.length_cons] at hlen
          omega
        have hdata : ("## " ++ d1 ++ "." ++ d2 ++ " " ++ label).data =
            '#' :: '#' :: (' ' :: (d1.data ++ ('.' :: (d2.data ++ (' ' :: label.data))))) := by
          simp [String.data_append, show ("## ").data = ['#', '#', ' '] from rfl,
            show (".").data = ['.'] from rfl, show (" ").data = [' '] from rfl]
        have hn1 : Meshy.matchSection ("## " ++ d1 ++ "." ++ d2 ++ " " ++ label) = none :=
          matchSection_hash₂ _ '#' _ hdata (by decide)
        have hpos := matchCategory_catH d1 d2 label ha hb hc hd hl
        have hstep : Meshy.parseLoop (f + 1)
            (("## " ++ d1 ++ "." ++ d2 ++ " " ++ label) :: renderDoc rest) sec cat acc =
            Meshy.parseLoop f (renderDoc rest) sec label acc := by
          simp [Meshy.parseLoop, hn1, hpos]
        rw [hstep, ih f sec label acc hwfr hf]
        rfl
    | entry eid ename payload =>
      obtain ⟨hid, hne, _, hpl⟩ := hwfe
      obtain ⟨u, a, b, heid, hu, hda, hdb⟩ := goodId_spec eid hid
      have hrd : renderDoc (DocElem.entry eid ename payload :: rest) =
          ("### " ++ eid ++ " - " ++ ename) :: "```" ::
            (payload ++ ("```" :: renderDoc rest)) := by
        simp [renderDoc, renderElem]
      rw [hrd] at hlen ⊢
      cases fuel with
      | zero => simp at hlen
      | succ f =>
        have hf : (renderDoc rest).length ≤ f := by
          simp [List.length_cons, List.length_append] at hlen
          omega
        have hdata : ("### " ++ eid ++ " - " ++ ename).data =
            '#' :: '#' :: '#' :: (' ' :: (eid.data ++ (' ' :: '-' :: ' ' :: ename.data))) := by
          simp [String.data_append, show ("### ").data = ['#', '#', '#', ' '] from rfl,
            show (" - ").data = [' ', '-', ' '] from rfl]
        have hn1 : Meshy.matchSection ("### " ++ eid ++ " - " ++ ename) = none :=
          matchSection_hash₂ _ '#' _ hdata (by decide)
        have hn2 : Meshy.matchCategory ("### " ++ eid ++ " - " ++ ename) = none :=
          matchCategory_hash₃ _ '#' _ hdata (by decide)
        have hmkeid : String.mk [u, a, b] = eid := by
          rw [← heid, string_mk_data]
        have hpos : Meshy.matchEntry ("### " ++ eid ++ " - " ++ ename) =
            some (eid, ename) := by
          have := matchEntry_entry u a b ename hu hda hdb hne
          rwa [hmkeid] at this
        have hpp : ∀ l ∈ payload, (fun l => !(Meshy.fenceLine l)) l = true := by
          intro l hlmem
          simp [(hpl l hlmem).1]
        have hstep : Meshy.parseLoop (f + 1)
            (("### " ++ eid ++ " - " ++ ename) :: "```" ::
              (payload ++ ("```" :: renderDoc rest))) sec cat acc =
            Meshy.parseLoop f (renderDoc rest) sec cat
              ({ id := eid, name := ename,
                 prompt := Meshy.addGlobalStyle
                   (Apex.pyStrip (String.intercalate "\n" payload)),
                 sectionNum := sec, category := cat } :: acc) := by
          simp [Meshy.parseLoop, hn1, hn2, hpos,
            show Meshy.fenceLine "```" = true from rfl,
            List.takeWhile_append_of_pos hpp, List.dropWhile_append_of_pos hpp,
            List.dropWhile_cons, List.takeWhile_cons]
        rw [hstep, ih f sec cat _ hwfr hf]
        simp [docItems]

end Doc

/-- C10: checkpoint persistence round-trip: saving progress with completed
set `S` and loading it back returns exactly `S` (list serialization then
set reconstruction loses nothing and adds nothing), and loading when no
progress file exists returns the empty set.  Proved for the blockade
store and for the elevenlabs store (which also carries a failed list). -/
theorem checkpoint_roundtrip :
    (∀ S : Finset String,
      Blockade.load_progress (some (Blockade.save_progress S)) = S) ∧
    Blockade.load_progress none = ∅ ∧
    (∀ (S : Finset String) (f : List (String × String)),
      Eleven.load_progress (some (Eleven.save_progress S f)) = S) ∧
    Eleven.load_progress none = ∅ := by
  refine ⟨fun S => ?_, rfl, fun S f => ?_, rfl⟩ <;>
    simp [Blockade.load_progress, Blockade.save_progress,
      Eleven.load_progress, Eleven.save_progress, Apex.sortedList_toFinset]

/-- C9 counterexample: sanitization does NOT remove every character outside
the alphanumeric/underscore/hyphen set: a tab is kept by
`re.sub(r'[^\w\s-]', '', ...)` (it matches `\s`) and is not replaced by
`.replace(' ', '_')`, so a disallowed character survives in the filename. -/
theorem filename_sanitization_cex :
    Meshy.sanitizedName "Bad\tName" = "Bad\tName" ∧
    '\t' ∈ (Meshy.ModelPrompt.filename ⟨"A01", "Bad\tName", "p", 1, "c"⟩).data ∧
    ¬('\t'.isAlpha ∨ '\t'.isDigit ∨ '\t' = '_' ∨ '\t' = '-') := by decide

/-- C9 (amended): sanitization removes every character outside the
word/whitespace/hyphen set and replaces spaces (U+0020 only) with
underscores; hence whenever the name's whitespace consists only of
spaces, every character of the sanitized name is alphanumeric, an
underscore or a hyphen.  The concrete example holds: id `F01` with name
`"Stone Foundation 1x1 (v2)"` yields stem `F01_Stone_Foundation_1x1_v2`. -/
theorem filename_sanitization :
    (∀ m : Meshy.ModelPrompt,
      (∀ c ∈ m.name.data, Apex.pyIsSpace c → c = ' ') →
      ∀ c ∈ (Meshy.sanitizedName m.name).data,
        c.isAlpha ∨ c.isDigit ∨ c = '_' ∨ c = '-') ∧
    Meshy.ModelPrompt.filename ⟨"F01", "Stone Foundation 1x1 (v2)", "p", 1, "c"⟩ =
      "F01_Stone_Foundation_1x1_v2" := by
  constructor
  · intro m h c hc
    simp only [Meshy.sanitizedName, List.mem_map, List.mem_filter] at hc
    obtain ⟨c0, ⟨hmem, hkeep⟩, hceq⟩ := hc
    by_cases hsp : c0 = ' '
    · subst hsp
      simp only [beq_self_eq_true, if_pos] at hceq
      subst hceq
      tauto
    · have hce : c = c0 := by
        rw [← hceq]
        simp [hsp]
      subst hce
      have hk : c.isAlpha ∨ c.isDigit ∨ c = '_' ∨ Apex.pyIsSpace c ∨ c = '-' := by
        simp only [Apex.pyIsWord, Bool.or_eq_true, beq_iff_eq] at hkeep
        tauto
      rcases hk with h1 | h1 | h1 | h1 | h1
      · exact Or.inl h1
      · exact Or.inr (Or.inl h1)
      · exact Or.inr (Or.inr (Or.inl h1))
      · exact absurd (h c hmem h1) hsp
      · exact Or.inr (Or.inr (Or.inr h1))
  · decide

/-- C9 witness for the conditional half of `filename_sanitization`. -/
theorem filename_sanitization_witness :
    (∀ c ∈ ("Iron Gate-2" : String).data, Apex.pyIsSpace c → c = ' ') ∧
    (∀ c ∈ (Meshy.sanitizedName "Iron Gate-2").data,
      c.isAlpha ∨ c.isDigit ∨ c = '_' ∨ c = '-') :=
  ⟨by decide, filename_sanitization.1 ⟨"X01", "Iron Gate-2", "p", 1, "c"⟩ (by decide)⟩

/-- C2 counterexample: after a Failed item's terminal outcome the
checkpoint store has NOT been flushed: the failure is appended to the
in-memory failed list only, and the progress file (still absent here) is
not rewritten before the next item is processed. -/
theorem checkpoint_flush_cex :
    (Eleven.generate_sound c2FailProvider
      ⟨"SFX-01", "Beep", "a beep", "0.5s", "UI"⟩ Eleven.initState).2.persisted = none ∧
    (Eleven.generate_sound c2FailProvider
      ⟨"SFX-01", "Beep", "a beep", "0.5s", "UI"⟩ Eleven.initState).2.failed =
      [("SFX-01", "quota exceeded")] := by decide

/-- C2 (amended): after each successful item the checkpoint is updated with
that item's outcome and immediately flushed (write-through); a failed
item's outcome, however, is recorded only in the in-memory failed list —
the persisted store is left untouched on the failure path (it catches up
only at the next success's flush or at the end-of-run save), and the
blockade runner never records failures at all. -/
theorem checkpoint_flush (P : Eleven.Provider) (snd : Eleven.SoundEffect)
    (s : Eleven.RunState) (hnot : snd.id ∉ s.completed) :
    (∀ audio, P.generate (Eleven.build_prompt snd) snd.duration = .ok audio →
      (Eleven.generate_sound P snd s).2.persisted =
        some (Eleven.save_progress (insert snd.id s.completed) s.failed)) ∧
    (∀ msg, P.generate (Eleven.build_prompt snd) snd.duration = .error msg →
      (Eleven.generate_sound P snd s).2.persisted = s.persisted ∧
      (Eleven.generate_sound P snd s).2.failed = s.failed ++ [(snd.id, msg)]) := by
  constructor
  · intro audio hok
    simp [Eleven.generate_sound, hnot, hok]
  · intro msg herr
    simp [Eleven.generate_sound, hnot, herr]

/-- C2 witness for `checkpoint_flush` (success path). -/
theorem checkpoint_flush_witness :
    ("SFX-9" ∉ Eleven.initState.completed) ∧
    (Eleven.generate_sound ⟨fun _ _ => .ok "bytes"⟩
        ⟨"SFX-9", "Ding", "a ding", "1.0s", "UI"⟩ Eleven.initState).2.persisted =
      some (Eleven.save_progress (insert "SFX-9" Eleven.initState.completed)
        Eleven.initState.failed) :=
  ⟨by decide,
   (checkpoint_flush ⟨fun _ _ => .ok "bytes"⟩
       ⟨"SFX-9", "Ding", "a ding", "1.0s", "UI"⟩ Eleven.initState (by decide)).1 "bytes" rfl⟩

/-- C7 counterexample: a transient poll failure DOES by itself make the
item Failed: the exception propagates out of the polling loop (which has
no try/except around `get_skybox_status`), `process_single` catches it and
returns failure, although a single retry would have seen completion and
the timeout budget was untouched. -/
theorem poll_retry_cex :
    (Blockade.process_single c7Provider 300 5 "fantasy"
      ⟨"SKY01", "n", "p", "c"⟩ Blockade.initState).1 = false ∧
    (Blockade.process_single c7Provider 300 5 "fantasy"
      ⟨"SKY01", "n", "p", "c"⟩ Blockade.initState).2.completed = ∅ ∧
    c7Provider.poll 1 1 = .ok (.complete (some "u") none) :=
  ⟨by decide, by decide, rfl⟩

/-- C7 (amended): a `PollError` (raised `requests` exception in
`get_skybox_status`) immediately terminates the polling loop and the item
transitions to Failed with nothing checkpointed; there is no retry within
the Polling state. -/
theorem poll_error_fails_item (P : Blockade.Provider) (timeout interval : Nat)
    (style : String) (item : Blockade.SkyboxPrompt) (s : Blockade.RunState)
    (gid : Nat) (e : String)
    (hns : item.id ∉ s.completed)
    (hsub : P.submit item.prompt (Blockade.styleId style) = .ok (some gid))
    (hpoll : P.poll gid 0 = .error e) (ht : 0 < timeout) :
    Blockade.wait_for_completion (P.poll gid) timeout interval =
      (.error (.pollExn e), 1) ∧
    (Blockade.process_single P timeout interval style item s).1 = false ∧
    (Blockade.process_single P timeout interval style item s).2.completed = s.completed ∧
    (Blockade.process_single P timeout interval style item s).2.persisted = s.persisted := by
  have hw : Blockade.wait_for_completion (P.poll gid) timeout interval =
      (.error (.pollExn e), 1) := by
    simp [Blockade.wait_for_completion, Blockade.waitLoop, ht, hpoll]
  refine ⟨hw, ?_, ?_, ?_⟩ <;>
    simp [Blockade.process_single, hns, hsub, hw]

/-- C7 witness for `poll_error_fails_item`. -/
theorem poll_error_fails_item_witness :
    ("SKY01" ∉ Blockade.initState.completed) ∧
    c7Provider.submit "p" (Blockade.styleId "fantasy") = .ok (some 1) ∧
    c7Provider.poll 1 0 = .error "connection reset" ∧
    (Blockade.process_single c7Provider 300 5 "fantasy"
      ⟨"SKY01", "n", "p", "c"⟩ Blockade.initState).2.persisted =
        Blockade.initState.persisted :=
  ⟨by decide, rfl, rfl,
   (poll_error_fails_item c7Provider 300 5 "fantasy" ⟨"SKY01", "n", "p", "c"⟩
     Blockade.initState 1 "connection reset" (by decide) rfl rfl (by decide)).2.2.2⟩

/-- Polling-loop helper: if every poll reports in-progress, the loop ends in
the `TimeoutError` branch once `elapsed` reaches the budget (the fuel
`timeout + 1` never runs out when the interval is positive, expressed by
the bound `timeout ≤ elapsed + fuel * interval`). -/
theorem waitLoop_always_inProgress (poll : Nat → Except String Blockade.ApiStatus)
    (timeout interval : Nat)
    (hpoll : ∀ n, ∃ pr q, poll n = .ok (.inProgress pr q)) :
    ∀ fuel n elapsed, timeout ≤ elapsed + fuel * interval →
      ∃ k, Blockade.waitLoop poll timeout interval fuel n elapsed =
        (.error (.timeout timeout), k) := by
  intro fuel
  induction fuel with
  | zero =>
    intro n elapsed hle
    have hnl : ¬ elapsed < timeout := by omega
    exact ⟨n, by simp [Blockade.waitLoop, hnl]⟩
  | succ f ih =>
    intro n elapsed hle
    by_cases hlt : elapsed < timeout
    · obtain ⟨pr, q, hp⟩ := hpoll n
      have hmul : (f + 1) * interval = f * interval + interval := Nat.succ_mul f interval
      obtain ⟨k, hk⟩ := ih (n + 1) (elapsed + interval) (by omega)
      exact ⟨k, by simp [Blockade.waitLoop, hlt, hp, hk]⟩
    · exact ⟨n, by simp [Blockade.waitLoop, hlt]⟩

/-- C6: timeout enforcement: with a positive poll interval, if the provider
reports an in-progress status on every poll, `wait_for_completion` does
not loop forever but returns the `TimeoutError` once the configured
wall-clock budget has elapsed, and `process_single` then marks the item
Failed (returns `false`, checkpointing nothing). -/
theorem timeout_enforcement (P : Blockade.Provider) (timeout interval : Nat)
    (style : String) (item : Blockade.SkyboxPrompt) (s : Blockade.RunState)
    (gid : Nat) (hi : 0 < interval) (hns : item.id ∉ s.completed)
    (hsub : P.submit item.prompt (Blockade.styleId style) = .ok (some gid))
    (hpoll : ∀ n, ∃ pr q, P.poll gid n = .ok (.inProgress pr q)) :
    (Blockade.wait_for_completion (P.poll gid) timeout interval).1 =
      .error (.timeout timeout) ∧
    (Blockade.process_single P timeout interval style item s).1 = false ∧
    (Blockade.process_single P timeout interval style item s).2.completed = s.completed ∧
    (Blockade.process_single P timeout interval style item s).2.persisted = s.persisted := by
  have h1 : timeout + 1 ≤ (timeout + 1) * interval := Nat.le_mul_of_pos_right _ hi
  obtain ⟨k, hk⟩ := waitLoop_always_inProgress (P.poll gid) timeout interval hpoll
    (timeout + 1) 0 0 (by omega)
  have hw : Blockade.wait_for_completion (P.poll gid) timeout interval =
      (.error (.timeout timeout), k) := hk
  refine ⟨by rw [hw], ?_, ?_, ?_⟩ <;>
    simp [Blockade.process_single, hns, hsub, hw]

/-- C6 witness for `timeout_enforcement`. -/
theorem timeout_enforcement_witness :
    (0 < 5) ∧ ("SKY07" ∉ Blockade.initState.completed) ∧
    (Blockade.wait_for_completion (c6Provider.poll 4) 12 5).1 = .error (.timeout 12) ∧
    (Blockade.process_single c6Provider 12 5 "fantasy" ⟨"SKY07", "n", "p", "c"⟩
      Blockade.initState).1 = false :=
  ⟨by decide, by decide,
   (timeout_enforcement c6Provider 12 5 "fantasy" ⟨"SKY07", "n", "p", "c"⟩
     Blockade.initState 4 (by decide) (by decide) rfl (fun _ => ⟨50, 0, rfl⟩)).1,
   (timeout_enforcement c6Provider 12 5 "fantasy" ⟨"SKY07", "n", "p", "c"⟩
     Blockade.initState 4 (by decide) (by decide) rfl (fun _ => ⟨50, 0, rfl⟩)).2.1⟩

/-- C1 counterexample: a failed item is never added to the `completed`
checkpoint, so the immediate second run re-attempts it and performs a
provider call — not zero as the claim states for every catalog. -/
theorem idempotent_resume_cex :
    c1FailRunTwo.2.2.calls = 1 ∧ ¬ c1FailRunTwo.2.2.calls = 0 := by decide

/-- C1 (amended): any item whose id is in the completed checkpoint set is
skipped before processing; hence when the first run ends with every
catalog id checkpointed completed (in particular when every item
succeeded), an immediate second run over the same checkpoint store
processes nothing: it performs zero provider calls and leaves the
artifact set exactly as the first run produced it.  Items that failed in
the first run are outside the completed set and are re-attempted. -/
theorem idempotent_resume (P : Blockade.Provider) (timeout interval : Nat)
    (style : String) (prompts : List Blockade.SkyboxPrompt) (s1 : Blockade.RunState)
    (h : ∀ p ∈ prompts, p.id ∈ Blockade.load_progress s1.persisted) :
    Blockade.process_all P timeout interval style prompts none
      (Blockade.restartState s1) = (0, 0, Blockade.restartState s1) ∧
    (Blockade.process_all P timeout interval style prompts none
      (Blockade.restartState s1)).2.2.calls = 0 ∧
    (Blockade.process_all P timeout interval style prompts none
      (Blockade.restartState s1)).2.2.artifacts = s1.artifacts := by
  have hplan : Blockade.plannedItems prompts (Blockade.restartState s1).completed none = [] := by
    simp only [Blockade.plannedItems, Blockade.restartState, List.filter_eq_nil_iff]
    intro p hp
    simp [h p hp]
  have hall : Blockade.process_all P timeout interval style prompts none
      (Blockade.restartState s1) = (0, 0, Blockade.restartState s1) := by
    simp [Blockade.process_all, hplan]
  refine ⟨hall, ?_, ?_⟩ <;> rw [hall] <;> rfl

/-- C1 witness for `idempotent_resume`. -/
theorem idempotent_resume_witness :
    (∀ p ∈ c1Catalog, p.id ∈ Blockade.load_progress c1RunOne.persisted) ∧
    Blockade.process_all c1OkProvider 300 5 "fantasy" c1Catalog none
      (Blockade.restartState c1RunOne) = (0, 0, Blockade.restartState c1RunOne) :=
  ⟨by decide,
   (idempotent_resume c1OkProvider 300 5 "fantasy" c1Catalog c1RunOne (by decide)).1⟩

/-- C3 counterexample: in the blockade runner the failed item is NOT
checkpointed failed — the entire persisted checkpoint after the run is
just the completed list `{SKY01, SKY03}` (the `ProgressFile` has no
failure field at all), and SKY02 appears nowhere in it. -/
theorem partial_failure_cex :
    c3Run.2.2.persisted = some (Blockade.save_progress {"SKY01", "SKY03"}) ∧
    "SKY02" ∉ Blockade.load_progress c3Run.2.2.persisted := by
  refine ⟨?_, by decide⟩
  decide

/-- C3 (amended): with 3 items where item 2's submit always fails, the run
processes all three and completes normally with a 2/1 success/failure
tally (so the process exits 0).  Items 1 and 3 are checkpointed
completed in both runners; item 2 is checkpointed failed in the meshy
runner, while the blockade runner's checkpoint merely omits it (its
store has no failed field). -/
theorem partial_failure_isolation :
    c3Run.1 = 2 ∧ c3Run.2.1 = 1 ∧
    Blockade.load_progress c3Run.2.2.persisted = {"SKY01", "SKY03"} ∧
    c3MRun.2.2.persisted = some (Meshy.save_progress {"M01", "M03"} ["M02"]) ∧
    c3MRun.1 = 2 ∧ c3MRun.2.1 = 1 := by decide

/-- Decomposition of `next((i for i, p in enumerate(remaining) if p.id ==
start_from), 0)`: when a match exists, `findStartAux` returns the index of
the first matching item. -/
theorem findStartAux_decomp (sf : String) :
    ∀ (l : List Blockade.SkyboxPrompt) (i : Nat),
      (∃ p ∈ l, p.id = sf) →
      ∃ pre m post, l = pre ++ m :: post ∧ m.id = sf ∧ (∀ q ∈ pre, q.id ≠ sf) ∧
        Blockade.findStartAux sf l i = pre.length + i := by
  intro l
  induction l with
  | nil => intro i h; simp at h
  | cons p rest ih =>
    intro i h
    by_cases hp : p.id = sf
    · exact ⟨[], p, rest, rfl, hp, by simp, by simp [Blockade.findStartAux, hp]⟩
    · have hrest : ∃ q ∈ rest, q.id = sf := by
        rcases h with ⟨q, hq, hqid⟩
        rcases List.mem_cons.mp hq with h1 | h1
        · exact absurd (h1 ▸ hqid) hp
        · exact ⟨q, h1, hqid⟩
      obtain ⟨pre, m, post, hl, hm, hpre, hidx⟩ := ih (i + 1) hrest
      refine ⟨p :: pre, m, post, by rw [hl, List.cons_append], hm, ?_, ?_⟩
      · intro q hq
        rcases List.mem_cons.mp hq with h1 | h1
        · rw [h1]; exact hp
        · exact hpre q h1
      · have hstep : Blockade.findStartAux sf (p :: rest) i =
            Blockade.findStartAux sf rest (i + 1) := by
          simp [Blockade.findStartAux, hp]
        rw [hstep, hidx]
        simp
        omega

/-- Once the meshy `started` flag is set, the remainder is just the
checkpoint filter. -/
theorem plannedAux_true (sf : String) (c : Finset String) :
    ∀ l : List Meshy.ModelPrompt,
      Meshy.plannedAux sf c true l = l.filter (fun p => !(decide (p.id ∈ c))) := by
  intro l
  induction l with
  | nil => simp [Meshy.plannedAux]
  | cons m rest ih =>
    by_cases hm : m.id ∈ c
    · simp [Meshy.plannedAux, hm, List.filter_cons, ih]
    · simp [Meshy.plannedAux, hm, List.filter_cons, ih]

/-- The meshy `started` filter with the flag still unset: when the
`start_from` id survives the checkpoint filter, the result is the suffix
of the filtered sequence beginning at its first occurrence. -/
theorem plannedAux_false (sf : String) (c : Finset String) (hc : sf ∉ c) :
    ∀ l : List Meshy.ModelPrompt,
      (∃ p ∈ l.filter (fun p => !(decide (p.id ∈ c))), p.id = sf) →
      ∃ pre m post,
        l.filter (fun p => !(decide (p.id ∈ c))) = pre ++ m :: post ∧ m.id = sf ∧
        (∀ q ∈ pre, q.id ≠ sf) ∧
        Meshy.plannedAux sf c false l = m :: post := by
  intro l
  induction l with
  | nil => intro h; simp at h
  | cons m rest ih =>
    intro h
    by_cases hm : m.id = sf
    · have hmc : m.id ∉ c := hm ▸ hc
      refine ⟨[], m, rest.filter (fun p => !(decide (p.id ∈ c))), ?_, hm, by simp, ?_⟩
      · simp [List.filter_cons, hmc]
      · simp [Meshy.plannedAux, hm, hmc, hc, plannedAux_true sf c rest]
    · by_cases hmc : m.id ∈ c
      · have hfeq : (m :: rest).filter (fun p => !(decide (p.id ∈ c))) =
            rest.filter (fun p => !(decide (p.id ∈ c))) := by
          simp [List.filter_cons, hmc]
        rw [hfeq] at h
        obtain ⟨pre, mm, post, h1, h2, h3, h4⟩ := ih h
        refine ⟨pre, mm, post, by rw [hfeq, h1], h2, h3, ?_⟩
        have hstep : Meshy.plannedAux sf c false (m :: rest) =
            Meshy.plannedAux sf c false rest := by
          simp [Meshy.plannedAux, hm]
        rw [hstep, h4]
      · have hfeq : (m :: rest).filter (fun p => !(decide (p.id ∈ c))) =
            m :: rest.filter (fun p => !(decide (p.id ∈ c))) := by
          simp [List.filter_cons, hmc]
        have hrest : ∃ p ∈ rest.filter (fun p => !(decide (p.id ∈ c))), p.id = sf := by
          rcases h with ⟨q, hq, hqid⟩
          rw [hfeq] at hq
          rcases List.mem_cons.mp hq with h1 | h1
          · exact absurd (h1 ▸ hqid) hm
          · exact ⟨q, h1, hqid⟩
        obtain ⟨pre, mm, post, h1, h2, h3, h4⟩ := ih hrest
        refine ⟨m :: pre, mm, post, ?_, h2, ?_, ?_⟩
        · rw [hfeq, h1]; rfl
        · intro q hq
          rcases List.mem_cons.mp hq with h1' | h1'
          · rw [h1']; exact hm
          · exact h3 q h1'
        · have hstep : Meshy.plannedAux sf c false (m :: rest) =
              Meshy.plannedAux sf c false rest := by
            simp [Meshy.plannedAux, hm]
          rw [hstep, h4]

/-- C4: startFrom filter: whenever the given id occurs among the
checkpoint-filtered remaining items, the items actually iterated are
exactly the suffix of that filtered sequence beginning at its first
occurrence — everything before the first match is excluded.  Proved for
the blockade runner (`remaining[start_idx:]`) and the meshy runner (the
`started` flag loop); the checkpoint itself need not contain the id. -/
theorem start_from_filter :
    (∀ (prompts : List Blockade.SkyboxPrompt) (completed : Finset String) (sf : String),
      (∃ p ∈ prompts.filter (fun p => !(decide (p.id ∈ completed))), p.id = sf) →
      ∃ pre m post,
        prompts.filter (fun p => !(decide (p.id ∈ completed))) = pre ++ m :: post ∧
        m.id = sf ∧ (∀ q ∈ pre, q.id ≠ sf) ∧
        Blockade.plannedItems prompts completed (some sf) = m :: post) ∧
    (∀ (models : List Meshy.ModelPrompt) (completed : Finset String) (sf : String),
      (∃ p ∈ models.filter (fun p => !(decide (p.id ∈ completed))), p.id = sf) →
      ∃ pre m post,
        models.filter (fun p => !(decide (p.id ∈ completed))) = pre ++ m :: post ∧
        m.id = sf ∧ (∀ q ∈ pre, q.id ≠ sf) ∧
        Meshy.models_to_process models (some sf) completed = m :: post) := by
  constructor
  · intro prompts completed sf h
    obtain ⟨pre, m, post, hl, hm, hpre, hidx⟩ :=
      findStartAux_decomp sf (prompts.filter (fun p => !(decide (p.id ∈ completed)))) 0 h
    refine ⟨pre, m, post, hl, hm, hpre, ?_⟩
    show (prompts.filter (fun p => !(decide (p.id ∈ completed)))).drop
      (Blockade.findStartAux sf (prompts.filter (fun p => !(decide (p.id ∈ completed)))) 0) =
        m :: post
    rw [hidx, hl]
    simp [List.drop_left]
  · intro models completed sf h
    have hc : sf ∉ completed := by
      rcases h with ⟨p, hp, hpid⟩
      rw [List.mem_filter] at hp
      intro hcon
      have h2 := hp.2
      rw [hpid] at h2
      simp [hcon] at h2
    obtain ⟨pre, m, post, h1, h2, h3, h4⟩ := plannedAux_false sf completed hc models h
    exact ⟨pre, m, post, h1, h2, h3, h4⟩

/-- C4 witness for `start_from_filter` (blockade half, with SKY01 already
checkpointed and startFrom = SKY02, an id absent from the checkpoint). -/
theorem start_from_filter_witness :
    (∃ p ∈ c4Prompts.filter (fun p => !(decide (p.id ∈ ({"SKY01"} : Finset String)))),
      p.id = "SKY02") ∧
    ∃ pre m post,
      c4Prompts.filter (fun p => !(decide (p.id ∈ ({"SKY01"} : Finset String)))) =
        pre ++ m :: post ∧
      m.id = "SKY02" ∧ (∀ q ∈ pre, q.id ≠ "SKY02") ∧
      Blockade.plannedItems c4Prompts {"SKY01"} (some "SKY02") = m :: post :=
  ⟨by decide, start_from_filter.1 c4Prompts {"SKY01"} "SKY02" (by decide)⟩

/-- C5 counterexample: an entry header with no fenced block before the next
entry marker is NOT silently dropped: A01 steals A02's fenced block as its
own payload and A02 yields no WorkItem at all — the surrounding entry is
destroyed, contradicting both halves of the claim. -/
theorem fenceless_entry_cex :
    Meshy.parse_batch_file
      ["### A01 - Alpha", "### A02 - Beta", "```", "low-poly stylized crate", "```"] =
    [{ id := "A01", name := "Alpha", prompt := "low-poly stylized crate",
       sectionNum := 0, category := "" }] := by decide

/-- C5 (amended): an entry header followed by NO fenced block anywhere in
the rest of the document yields no WorkItem, and scanning ends with the
items accumulated so far (so earlier entries are unaffected); but when a
fenced block occurs further on, the entry captures the first such block —
even one belonging to a later entry or section (here a `# SECTION` header
standing between the entry and the fence is swallowed and the section is
never applied) — as its own payload. -/
theorem fenceless_entry :
    (∀ (fuel : Nat) (header : String) (rest : List String) (sec : Nat) (cat : String)
        (acc : List Meshy.ModelPrompt),
      Meshy.matchSection header = none →
      Meshy.matchCategory header = none →
      (Meshy.matchEntry header).isSome →
      (∀ l ∈ rest, Meshy.fenceLine l = false) →
      Meshy.parseLoop (fuel + 1) (header :: rest) sec cat acc = acc.reverse) ∧
    Meshy.parse_batch_file
      ["### B01 - Alpha", "# SECTION 2: Camps", "```", "low-poly stylized tent", "```"] =
    [{ id := "B01", name := "Alpha", prompt := "low-poly stylized tent",
       sectionNum := 0, category := "" }] := by
  constructor
  · intro fuel header rest sec cat acc h1 h2 h3 h4
    obtain ⟨m, hm⟩ := Option.isSome_iff_exists.mp h3
    have hdrop : rest.dropWhile (fun l => !(Meshy.fenceLine l)) = [] := by
      rw [List.dropWhile_eq_nil_iff]
      intro x hx
      simp [h4 x hx]
    simp [Meshy.parseLoop, h1, h2, hm, hdrop]
  · decide

/-- C5 witness for the no-fence half of `fenceless_entry`. -/
theorem fenceless_entry_witness :
    (Meshy.matchEntry "### B07 - Lone").isSome ∧
    Meshy.parseLoop 3 ["### B07 - Lone", "filler", "### B08 - Next"] 0 "" [] = [] :=
  ⟨by decide,
   fenceless_entry.1 2 "### B07 - Lone" ["filler", "### B08 - Next"] 0 "" []
     (by decide) (by decide) (by decide) (by decide)⟩

/-- C8: catalog round-trip: for every well-formed document of section
headers, category headers and entries, `parse_batch_file` yields the
WorkItems in document order, each carrying the nearest-preceding section
(and category label); `docItems` threads the section context unchanged
through category headers, so a category header between two entries of the
same section does not change their section attribution. -/
theorem catalog_roundtrip (d : List Doc.DocElem) (h : Doc.wfDoc d) :
    Meshy.parse_batch_file (Doc.renderDoc d) = Doc.docItems d 0 "" := by
  have hmain := Doc.parseLoop_render d (Doc.renderDoc d).length 0 "" [] h (le_refl _)
  simpa [Meshy.parse_batch_file] using hmain

/-- C8 witness for `catalog_roundtrip`: both section-1 entries keep
section 1 although a category header stands between them. -/
theorem catalog_roundtrip_witness :
    Doc.wfDoc c8Doc ∧
    Meshy.parse_batch_file (Doc.renderDoc c8Doc) = Doc.docItems c8Doc 0 "" ∧
    Doc.docItems c8Doc 0 "" =
      [⟨"A01", "First Asset", "low-poly stylized hut", 1, ""⟩,
       ⟨"A02", "Second Asset", "low-poly stylized wall", 1, "Walls"⟩,
       ⟨"B01", "Third Asset", "low-poly stylized rock", 2, "Walls"⟩] :=
  ⟨by decide, catalog_roundtrip c8Doc (by decide), by decide⟩
